import Mathlib

/-!
Verification of the configuration-resolution logic and interactive-session
driver of the AgentFrameworkPlayground repository (files
`AgentFrameworkPython/main.py` and `AgentFrameworkPython/config_helpers.py`),
as a shallow embedding in Lean 4.

Modelling choices:
* JSON values (`json.loads` output) are an inductive `JsonValue`; a parsed
  JSON object is an association list `Dict` with unique keys, mirroring a
  Python `dict` (insertion ordered, key-unique).
* Python `dict.get` is `dictGet`; `config |= other` is `dictMerge` (each key
  of `other` is inserted in order; an existing key keeps its position and
  gets the new value, a fresh key is appended).
* Filesystem paths are component lists (`FsPath`); `Path.parent` is
  `List.dropLast`, `/` is append.  The filesystem is a pair of functions:
  an existence test and the parsed content of each JSON file.
* The interactive loop of `main` is a trace function from the list of lines
  available on standard input (followed by end-of-input or an interrupt) to
  the list of observable actions, with the external streaming client
  abstracted as a function from the submitted text to its text fragments.
-/

namespace AgentFrameworkPlayground

/-- A parsed JSON value, as produced by `json.loads`. -/
inductive JsonValue where
  | null : JsonValue
  | bool (b : Bool) : JsonValue
  | num (n : Int) : JsonValue
  | str (s : String) : JsonValue
  | arr (items : List JsonValue) : JsonValue
  | obj (fields : List (String × JsonValue)) : JsonValue

/-- A top-level JSON object / Python `dict`: an insertion-ordered association
list.  Dictionaries produced by `json.loads` have pairwise-distinct keys. -/
abbrev Dict := List (String × JsonValue)

/-- Python `isinstance(value, str)`. -/
def JsonValue.isStr : JsonValue → Bool
  | JsonValue.str _ => true
  | _ => false

/-- Python `config.get(key)`: the value at the first (in a real `dict`, only)
occurrence of `key`, or `none`. -/
def dictGet (d : Dict) (k : String) : Option JsonValue :=
  match d with
  | [] => none
  | p :: rest => if p.1 == k then some p.2 else dictGet rest k

/-- Assigning `d[k] = v` in a Python `dict`: an existing key keeps its
position and receives the new value; a fresh key is appended at the end. -/
def dictInsert (d : Dict) (k : String) (v : JsonValue) : Dict :=
  match d with
  | [] => [(k, v)]
  | p :: rest => if p.1 == k then (k, v) :: rest else p :: dictInsert rest k v

/-- Python `a | b` / `a |= b` on dicts: every key of `b` is assigned into `a`
in order, so on a collision the value from `b` wins. -/
def dictMerge (a b : Dict) : Dict :=
  b.foldl (fun acc p => dictInsert acc p.1 p.2) a

/-- The merged configuration built by `main`: an empty `config` updated
in place with `base`, then with `dev`. -/
def mergedConfig (base dev : Dict) : Dict :=
  dictMerge (dictMerge [] base) dev

/-! ## Python `str.strip()` -/

/-- A whitespace character in the sense of the Python method `str.strip()`
(restricted to the ASCII whitespace characters). -/
def isPySpace (c : Char) : Bool :=
  c == ' ' || c == '\t' || c == '\n' || c == '\r' || c == '\x0b' || c == '\x0c'

/-- Python `s.strip()`: remove leading and trailing whitespace; interior
characters are untouched. -/
def pyStrip (s : String) : String :=
  String.mk (((s.data.dropWhile isPySpace).reverse.dropWhile isPySpace).reverse)

/-! ## Required-key validation (`config_helpers.require_str`) -/

/-- The error message raised by `require_str` for `key`: the key name
followed by ` not found in appsettings.Development.json`. -/
def requireStrError (key : String) : String :=
  key ++ " not found in appsettings.Development.json"

/-- The function `config_helpers.require_str`: `value = config.get(key)`; raise unless
`value` is a string whose `strip()` is non-empty (Python truthiness of
`value.strip()`); otherwise return `value` unchanged. -/
def require_str (config : Dict) (key : String) : Except String String :=
  match dictGet config key with
  | some (JsonValue.str s) =>
      if pyStrip s = "" then Except.error (requireStrError key)
      else Except.ok s
  | _ => Except.error (requireStrError key)

/-! ## Path resolution (`config_helpers.resolve_appsettings_paths`) -/

/-- A filesystem path, as its list of components; the `pathlib` attribute
`parent` is `List.dropLast` and `/` is append. -/
abbrev FsPath := List String

/-- Rendering of a path for error messages: formatting a path object
joins the components with the separator. -/
def pathToString (p : FsPath) : String :=
  String.intercalate "/" p

/-- The single base-file candidate:
`here.parent / "AgentFramework" / "appsettings.json"`. -/
def baseCandidate (here : FsPath) : FsPath :=
  here.dropLast ++ ["AgentFramework", "appsettings.json"]

/-- The ordered development-file candidates of
`resolve_appsettings_paths`: alongside the entry point, the parent-level
`AgentFramework` directory, and its `bin/Debug/net10.0` build output. -/
def devCandidates (here : FsPath) : List FsPath :=
  [here ++ ["appsettings.Development.json"],
   here.dropLast ++ ["AgentFramework", "appsettings.Development.json"],
   here.dropLast ++ ["AgentFramework", "bin", "Debug", "net10.0",
     "appsettings.Development.json"]]

/-- The `FileNotFoundError` message when no development candidate exists:
a header line followed by one `- path` line per candidate. -/
def notFoundMessage (here : FsPath) : String :=
  "appsettings.Development.json not found. Expected one of:\n" ++
    String.intercalate "\n" ((devCandidates here).map (fun p => "- " ++ pathToString p))

/-- The function `config_helpers.resolve_appsettings_paths` over an abstract existence
test `ex`: the base path if it exists (else `none`), paired with the first
existing development candidate; error when no candidate exists. -/
def resolve_appsettings_paths (ex : FsPath → Bool) (here : FsPath) :
    Except String (Option FsPath × FsPath) :=
  let base := baseCandidate here
  let base_path : Option FsPath := if ex base then some base else none
  match (devCandidates here).find? ex with
  | some dev_path => Except.ok (base_path, dev_path)
  | none => Except.error (notFoundMessage here)

/-! ## Startup (`main` up to client construction) -/

/-- The three validated configuration strings. -/
structure ResolvedSettings where
  modelName : String
  endpoint : String
  apiKey : String

/-- An abstract filesystem: which paths exist, and the parsed JSON object
stored at each (meaningful only where `pathExists` holds). -/
structure PyFS where
  pathExists : FsPath → Bool
  readJson : FsPath → Dict

/-- The startup portion of `main`: resolve the two paths, merge the optional
base document and the development document into an initially empty `config`,
then validate the three required keys.  An `Except.error` is a fatal startup
failure raised before any chat client is constructed. -/
def startup (fs : PyFS) (here : FsPath) : Except String ResolvedSettings :=
  match resolve_appsettings_paths fs.pathExists here with
  | Except.error e => Except.error e
  | Except.ok (base_path, dev_path) =>
    let config : Dict := []
    let config := match base_path with
      | some bp => dictMerge config (fs.readJson bp)
      | none => config
    let config := dictMerge config (fs.readJson dev_path)
    match require_str config "ModelName" with
    | Except.error e => Except.error e
    | Except.ok model_name =>
      match require_str config "Endpoint" with
      | Except.error e => Except.error e
      | Except.ok endpoint =>
        match require_str config "ApiKey" with
        | Except.error e => Except.error e
        | Except.ok api_key => Except.ok ⟨model_name, endpoint, api_key⟩

/-- The function `main` constructs the `AzureOpenAIChatClient` exactly when startup
resolution and validation succeed. -/
def constructsClient (fs : PyFS) (here : FsPath) : Bool :=
  (startup fs here).isOk

/-! ## The registered tool (`main.get_weather`) -/

/-- The tool `main.get_weather`: the deterministic placeholder weather tool. -/
def get_weather (location : String) : String :=
  "The weather in " ++ location ++ " is cloudy with a high of 15°C."

/-! ## The interactive loop of `main` -/

/-- How the read at the top of the loop finally fails once the supplied lines
are exhausted: `EOFError` (end of input) or `KeyboardInterrupt`.  Both are
caught by the same `except` clause. -/
inductive EndEvent where
  | eofError : EndEvent
  | keyboardInterrupt : EndEvent

/-- Observable actions of one session of the interactive loop. -/
inductive Action where
  | promptUser : Action
  | agentMarker : Action
  | clientCall (text : String) : Action
  | printFragment (text : String) : Action
  | printNewline : Action

/-- Bool test for the client-call action. -/
def isClientCall : Action → Bool
  | Action.clientCall _ => true
  | _ => false

/-- The `while True` loop of `main`: `client` abstracts
`agent.run_stream` (the text fragments streamed for a submitted input),
`lines` are the lines standard input still holds, and once they run out the
read raises `fin`, which is caught: `print()` then `break`.  Each iteration
prints the `user> ` prompt, strips the line, skips it when empty, and
otherwise prints the `agent> ` marker, calls the client with the stripped
text, prints every non-empty fragment, and ends the turn with a newline. -/
def runLoop (client : String → List String) (fin : EndEvent) :
    List String → List Action
  | [] => [Action.promptUser, Action.printNewline]
  | line :: rest =>
      let t := pyStrip line
      if t = "" then
        Action.promptUser :: runLoop client fin rest
      else
        Action.promptUser :: Action.agentMarker :: Action.clientCall t ::
          (((client t).filter (fun s => s != "")).map Action.printFragment ++
            (Action.printNewline :: runLoop client fin rest))

/-- A whole interactive session: the trace of actions and the process exit
code.  The loop only ends through the caught `EOFError`/`KeyboardInterrupt`,
after which `main` returns normally, so the exit code is 0. -/
def interactiveSession (client : String → List String) (fin : EndEvent)
    (lines : List String) : List Action × Nat :=
  (runLoop client fin lines, 0)

/-! ## Shared helper lemmas -/

@[simp]
theorem dictGet_nil (k : String) : dictGet [] k = none := rfl

theorem dictGet_dictInsert_self (d : Dict) (k : String) (v : JsonValue) :
    dictGet (dictInsert d k v) k = some v := by
  induction d with
  | nil => simp [dictInsert, dictGet]
  | cons p rest ih =>
    by_cases h : p.1 == k
    · simp [dictInsert, dictGet, h]
    · simp [dictInsert, dictGet, h, ih]

theorem dictGet_dictInsert_ne (d : Dict) (k' k : String) (v : JsonValue)
    (h : k' ≠ k) : dictGet (dictInsert d k' v) k = dictGet d k := by
  induction d with
  | nil => simp [dictInsert, dictGet, h]
  | cons p rest ih =>
    by_cases hp : p.1 == k'
    · have hp' : p.1 = k' := by simpa using hp
      simp [dictInsert, dictGet, hp, hp', h]
    · simp [dictInsert, dictGet, hp, ih]

theorem dictGet_eq_none_of_not_mem (d : Dict) (k : String)
    (h : ∀ p ∈ d, p.1 ≠ k) : dictGet d k = none := by
  induction d with
  | nil => rfl
  | cons p rest ih =>
    have hp : (p.1 == k) = false := by
      simp only [beq_eq_false_iff_ne]
      exact h p (List.mem_cons_self p rest)
    simp [dictGet, hp]
    exact ih fun q hq => h q (List.mem_cons_of_mem p hq)

theorem dictMerge_cons (a : Dict) (p : String × JsonValue) (b : Dict) :
    dictMerge a (p :: b) = dictMerge (dictInsert a p.1 p.2) b := rfl

/-- Lookup in a merge: when the keys of `b` are pairwise distinct (true of
every dict coming from `json.loads`), the value of `a | b` at `k` is the value
in `b` when present, otherwise the value in `a`. -/
theorem dictGet_dictMerge (a b : Dict) (k : String)
    (hb : (b.map Prod.fst).Nodup) :
    dictGet (dictMerge a b) k = (dictGet b k).orElse (fun _ => dictGet a k) := by
  induction b generalizing a with
  | nil => simp [dictMerge, dictGet]
  | cons p rest ih =>
    rw [dictMerge_cons]
    rw [List.map_cons, List.nodup_cons] at hb
    by_cases hk : p.1 = k
    · subst hk
      have hrest : dictGet rest p.1 = none := by
        apply dictGet_eq_none_of_not_mem
        intro q hq hqk
        exact hb.1 (hqk ▸ List.mem_map_of_mem Prod.fst hq)
      rw [ih (dictInsert a p.1 p.2) hb.2]
      simp [dictGet, hrest, dictGet_dictInsert_self]
    · rw [ih (dictInsert a p.1 p.2) hb.2]
      have : (p.1 == k) = false := by simp [hk]
      simp [dictGet, this, dictGet_dictInsert_ne a p.1 k p.2 hk]

/-- Merging a dict with unique keys into the empty dict changes no lookup. -/
theorem dictGet_dictMerge_nil (dev : Dict) (k : String)
    (hnd : (dev.map Prod.fst).Nodup) :
    dictGet (dictMerge [] dev) k = dictGet dev k := by
  rw [dictGet_dictMerge [] dev k hnd]
  cases dictGet dev k <;> rfl

/-- Evaluating `List.find?` on a three-element list, spelled out. -/
theorem find?_three (p : FsPath → Bool) (a b c : FsPath) :
    List.find? p [a, b, c] =
      (if p a then some a else if p b then some b else if p c then some c
       else none) := by
  cases ha : p a <;> cases hb : p b <;> cases hc : p c <;>
    simp [List.find?_cons_of_pos, List.find?_cons_of_neg, ha, hb, hc]

/-- The check `require_str` succeeds, returning the stored string unchanged, when the
key holds a string whose stripped form is non-empty. -/
theorem require_str_ok (config : Dict) (key s : String)
    (hv : dictGet config key = some (JsonValue.str s)) (hs : pyStrip s ≠ "") :
    require_str config key = Except.ok s := by
  simp [require_str, hv, hs]

/-- Every `runLoop` trace starts with the `user> ` prompt. -/
theorem runLoop_head? (client : String → List String) (fin : EndEvent)
    (lines : List String) :
    (runLoop client fin lines).head? = some Action.promptUser := by
  cases lines with
  | nil => rfl
  | cons line rest => by_cases h : pyStrip line = "" <;> simp [runLoop, h]

/-- A `runLoop` trace is never empty. -/
theorem runLoop_ne_nil (client : String → List String) (fin : EndEvent)
    (lines : List String) : runLoop client fin lines ≠ [] := by
  cases lines with
  | nil => simp [runLoop]
  | cons line rest => by_cases h : pyStrip line = "" <;> simp [runLoop, h]

/-! ## Claim theorems -/

/-- Claim C1: the merged configuration built by `main` is the shallow
key-level override of `base` by `dev`: a top-level key present in both maps
to the development value, keys only in `base` are retained, keys only in
`dev` are added, and values (nested objects included) are replaced
wholesale; on the concrete pair where base maps A to 1 and B to 2 while
dev maps B to 3 and C to 4, the merge maps A to 1, B to 3 and C to 4. -/
theorem merge_is_shallow_override (base dev : Dict)
    (hbase : (base.map Prod.fst).Nodup) (hdev : (dev.map Prod.fst).Nodup) :
    (∀ k, dictGet (mergedConfig base dev) k =
      (dictGet dev k).orElse (fun _ => dictGet base k)) ∧
    mergedConfig [("A", JsonValue.num 1), ("B", JsonValue.num 2)]
        [("B", JsonValue.num 3), ("C", JsonValue.num 4)] =
      [("A", JsonValue.num 1), ("B", JsonValue.num 3), ("C", JsonValue.num 4)] := by
  refine ⟨fun k => ?_, rfl⟩
  unfold mergedConfig
  rw [dictGet_dictMerge _ dev k hdev, dictGet_dictMerge_nil base k hbase]

/-- Witness for C1 at the concrete inputs from the spec, key `"B"`. -/
theorem merge_is_shallow_override_witness :
    dictGet (mergedConfig [("A", JsonValue.num 1), ("B", JsonValue.num 2)]
        [("B", JsonValue.num 3), ("C", JsonValue.num 4)]) "B" =
      (dictGet [("B", JsonValue.num 3), ("C", JsonValue.num 4)] "B").orElse
        (fun _ => dictGet [("A", JsonValue.num 1), ("B", JsonValue.num 2)] "B") :=
  (merge_is_shallow_override
    [("A", JsonValue.num 1), ("B", JsonValue.num 2)]
    [("B", JsonValue.num 3), ("C", JsonValue.num 4)]
    (by decide) (by decide)).1 "B"

/-- Claim C2: `require_str` fails exactly when the key is absent, non-string,
or whitespace-only after stripping; every failure carries the message naming
the key and `appsettings.Development.json`; in particular the development
document whose ModelName is whitespace-only fails naming
`ModelName`. -/
theorem require_str_validation (config : Dict) (key : String) :
    ((∃ err, require_str config key = Except.error err) ↔
      (dictGet config key = none ∨
       (∃ v, dictGet config key = some v ∧ v.isStr = false) ∨
       (∃ s, dictGet config key = some (JsonValue.str s) ∧ pyStrip s = ""))) ∧
    (∀ err, require_str config key = Except.error err →
      err = key ++ " not found in appsettings.Development.json") ∧
    require_str [("ModelName", JsonValue.str "  "), ("Endpoint", JsonValue.str "e"),
        ("ApiKey", JsonValue.str "k")] "ModelName" =
      Except.error "ModelName not found in appsettings.Development.json" := by
  refine ⟨?_, ?_, rfl⟩
  · rcases hv : dictGet config key with _ | v
    · simp [require_str, requireStrError, hv]
    · cases v with
      | str s =>
        by_cases hs : pyStrip s = ""
        · simp [require_str, JsonValue.isStr, hv, hs]
        · simp [require_str, JsonValue.isStr, hv, hs]
      | null => simp [require_str, JsonValue.isStr, hv]
      | bool b => simp [require_str, JsonValue.isStr, hv]
      | num n => simp [require_str, JsonValue.isStr, hv]
      | arr items => simp [require_str, JsonValue.isStr, hv]
      | obj fields => simp [require_str, JsonValue.isStr, hv]
  · intro err herr
    unfold require_str at herr
    split at herr
    · split at herr
      · exact (Except.error.inj herr).symm
      · exact absurd herr (by simp)
    · exact (Except.error.inj herr).symm

/-- Witness for C2: the concrete whitespace-only `ModelName` failure. -/
theorem require_str_validation_witness :
    require_str [("ModelName", JsonValue.str "  "), ("Endpoint", JsonValue.str "e"),
        ("ApiKey", JsonValue.str "k")] "ModelName" =
      Except.error "ModelName not found in appsettings.Development.json" :=
  (require_str_validation
    [("ModelName", JsonValue.str "  "), ("Endpoint", JsonValue.str "e"),
      ("ApiKey", JsonValue.str "k")] "ModelName").2.2

/-- Claim C3: path resolution examines exactly the three fixed development
candidates, in order (alongside the entry point; the parent-level
`AgentFramework` directory; its `bin/Debug/net10.0` build output), and
returns the first existing one — a later candidate is chosen only when every
earlier one is absent, and no candidate lists are merged. -/
theorem resolver_first_match (ex : FsPath → Bool) (here : FsPath) (c : FsPath) :
    devCandidates here =
      [here ++ ["appsettings.Development.json"],
       here.dropLast ++ ["AgentFramework", "appsettings.Development.json"],
       here.dropLast ++ ["AgentFramework", "bin", "Debug", "net10.0",
         "appsettings.Development.json"]] ∧
    ((∃ b, resolve_appsettings_paths ex here = Except.ok (b, c)) ↔
      ((ex (here ++ ["appsettings.Development.json"]) = true ∧
          c = here ++ ["appsettings.Development.json"]) ∨
       (ex (here ++ ["appsettings.Development.json"]) = false ∧
          ex (here.dropLast ++ ["AgentFramework", "appsettings.Development.json"]) = true ∧
          c = here.dropLast ++ ["AgentFramework", "appsettings.Development.json"]) ∨
       (ex (here ++ ["appsettings.Development.json"]) = false ∧
          ex (here.dropLast ++ ["AgentFramework", "appsettings.Development.json"]) = false ∧
          ex (here.dropLast ++ ["AgentFramework", "bin", "Debug", "net10.0",
            "appsettings.Development.json"]) = true ∧
          c = here.dropLast ++ ["AgentFramework", "bin", "Debug", "net10.0",
            "appsettings.Development.json"]))) := by
  refine ⟨rfl, ?_⟩
  unfold resolve_appsettings_paths
  rw [show devCandidates here =
    [here ++ ["appsettings.Development.json"],
     here.dropLast ++ ["AgentFramework", "appsettings.Development.json"],
     here.dropLast ++ ["AgentFramework", "bin", "Debug", "net10.0",
       "appsettings.Development.json"]] from rfl, find?_three]
  cases h0 : ex (here ++ ["appsettings.Development.json"]) <;>
    cases h1 : ex (here.dropLast ++ ["AgentFramework", "appsettings.Development.json"]) <;>
      cases h2 : ex (here.dropLast ++ ["AgentFramework", "bin", "Debug", "net10.0",
          "appsettings.Development.json"]) <;>
        simp <;> exact eq_comm

/-- Claim C6: the single base candidate
(`here.parent/AgentFramework/appsettings.json`) is optional: resolution
succeeds exactly when some development candidate exists (whether or not the
base file does), the returned base component is `some` of the base candidate
precisely when that file exists and `none` otherwise, and the base candidate
is never one of the development candidates. -/
theorem base_path_optional (ex : FsPath → Bool) (here : FsPath) :
    ((∃ r, resolve_appsettings_paths ex here = Except.ok r) ↔
      ∃ c ∈ devCandidates here, ex c = true) ∧
    (∀ b d, resolve_appsettings_paths ex here = Except.ok (b, d) →
      b = if ex (baseCandidate here) then some (baseCandidate here) else none) ∧
    baseCandidate here ∉ devCandidates here := by
  refine ⟨?_, ?_, ?_⟩
  · rw [← List.find?_isSome]
    unfold resolve_appsettings_paths
    cases hf : (devCandidates here).find? ex <;> simp [hf]
  · intro b d hbd
    unfold resolve_appsettings_paths at hbd
    split at hbd
    · exact ((Prod.mk.inj (Except.ok.inj hbd)).1).symm
    · exact absurd hbd (by simp)
  · intro hmem
    simp only [devCandidates, List.mem_cons, List.not_mem_nil, or_false] at hmem
    rcases hmem with h | h | h <;>
      · have hl := congrArg List.getLast? h
        rw [baseCandidate, List.getLast?_append_cons, List.getLast?_append_cons] at hl
        exact absurd (Option.some.inj hl) (by decide)

/-- Claim C4: when no development candidate exists, startup fails with the
`FileNotFoundError` whose message is the header line followed by one
`- path` line per attempted candidate, and no chat client is constructed. -/
theorem missing_dev_is_fatal (fs : PyFS) (here : FsPath)
    (h : ∀ c ∈ devCandidates here, fs.pathExists c = false) :
    startup fs here = Except.error (notFoundMessage here) ∧
    notFoundMessage here =
      String.intercalate "\n"
        ("appsettings.Development.json not found. Expected one of:" ::
          (devCandidates here).map (fun p => "- " ++ pathToString p)) ∧
    constructsClient fs here = false := by
  have hfind : (devCandidates here).find? fs.pathExists = none :=
    List.find?_eq_none.mpr (by simpa using h)
  have hresolve : resolve_appsettings_paths fs.pathExists here =
      Except.error (notFoundMessage here) := by
    unfold resolve_appsettings_paths
    rw [hfind]
  have hstartup : startup fs here = Except.error (notFoundMessage here) := by
    unfold startup
    rw [hresolve]
  refine ⟨hstartup, ?_, ?_⟩
  · simp [notFoundMessage, devCandidates, String.intercalate, String.intercalate.go,
      String.append_assoc]
  · rw [constructsClient, hstartup]
    rfl

/-- Witness for C4: a filesystem with no files at all. -/
theorem missing_dev_is_fatal_witness :
    startup ⟨fun _ => false, fun _ => []⟩ ["r", "AgentFrameworkPython"] =
        Except.error (notFoundMessage ["r", "AgentFrameworkPython"]) ∧
    notFoundMessage ["r", "AgentFrameworkPython"] =
      String.intercalate "\n"
        ("appsettings.Development.json not found. Expected one of:" ::
          (devCandidates ["r", "AgentFrameworkPython"]).map
            (fun p => "- " ++ pathToString p)) ∧
    constructsClient ⟨fun _ => false, fun _ => []⟩ ["r", "AgentFrameworkPython"] = false :=
  missing_dev_is_fatal ⟨fun _ => false, fun _ => []⟩ ["r", "AgentFrameworkPython"]
    (fun _ _ => rfl)

/-- Claim C9: `get_weather` is a pure deterministic placeholder: it returns
the fixed-format string embedding the given location, and equal locations
give equal results. -/
theorem get_weather_pure_format (location : String) :
    get_weather location =
      "The weather in " ++ location ++ " is cloudy with a high of 15°C." ∧
    (∀ l₁ l₂ : String, l₁ = l₂ → get_weather l₁ = get_weather l₂) :=
  ⟨rfl, fun _ _ h => h ▸ rfl⟩

/-- Witness for C9 at the location `"Paris"`. -/
theorem get_weather_pure_format_witness :
    get_weather "Paris" =
      "The weather in " ++ "Paris" ++ " is cloudy with a high of 15°C." :=
  (get_weather_pure_format "Paris").1

/-- Claim C5: with no base file and a development document holding all three
required keys as strings with non-whitespace content, startup succeeds and
the `ResolvedSettings` triple is character-for-character the development
values held in the document; keys beyond the three are neither surfaced nor
validated. -/
theorem dev_only_exact_values (fs : PyFS) (here : FsPath) (dev : Dict)
    (dp : FsPath) (m e k : String)
    (hbase : fs.pathExists (baseCandidate here) = false)
    (hfound : (devCandidates here).find? fs.pathExists = some dp)
    (hread : fs.readJson dp = dev)
    (hnd : (dev.map Prod.fst).Nodup)
    (hm : dictGet dev "ModelName" = some (JsonValue.str m)) (hm2 : pyStrip m ≠ "")
    (he : dictGet dev "Endpoint" = some (JsonValue.str e)) (he2 : pyStrip e ≠ "")
    (hk : dictGet dev "ApiKey" = some (JsonValue.str k)) (hk2 : pyStrip k ≠ "") :
    startup fs here = Except.ok ⟨m, e, k⟩ := by
  have hres : resolve_appsettings_paths fs.pathExists here = Except.ok (none, dp) := by
    simp only [resolve_appsettings_paths, hfound, hbase]
    rfl
  have hget : ∀ key, dictGet (dictMerge [] dev) key = dictGet dev key :=
    fun key => dictGet_dictMerge_nil dev key hnd
  have hM := require_str_ok (dictMerge [] dev) "ModelName" m
    ((hget "ModelName").trans hm) hm2
  have hE := require_str_ok (dictMerge [] dev) "Endpoint" e
    ((hget "Endpoint").trans he) he2
  have hA := require_str_ok (dictMerge [] dev) "ApiKey" k
    ((hget "ApiKey").trans hk) hk2
  simp only [startup, hres, hread, hM, hE, hA]

/-- Witness for C5: a filesystem holding only the development file alongside
the entry point; the extra key `"Extra"` is ignored. -/
theorem dev_only_exact_values_witness :
    startup
      ⟨fun p => p == ["r", "AgentFrameworkPython", "appsettings.Development.json"],
       fun _ => [("ModelName", JsonValue.str "gpt"), ("Endpoint", JsonValue.str "http://x"),
         ("ApiKey", JsonValue.str "secret"), ("Extra", JsonValue.num 7)]⟩
      ["r", "AgentFrameworkPython"] =
      Except.ok ⟨"gpt", "http://x", "secret"⟩ :=
  dev_only_exact_values
    ⟨fun p => p == ["r", "AgentFrameworkPython", "appsettings.Development.json"],
     fun _ => [("ModelName", JsonValue.str "gpt"), ("Endpoint", JsonValue.str "http://x"),
       ("ApiKey", JsonValue.str "secret"), ("Extra", JsonValue.num 7)]⟩
    ["r", "AgentFrameworkPython"]
    [("ModelName", JsonValue.str "gpt"), ("Endpoint", JsonValue.str "http://x"),
      ("ApiKey", JsonValue.str "secret"), ("Extra", JsonValue.num 7)]
    ["r", "AgentFrameworkPython", "appsettings.Development.json"]
    "gpt" "http://x" "secret"
    rfl rfl rfl (by decide) rfl (by decide) rfl (by decide) rfl (by decide)

/-- Claim C7: an iteration whose line strips to the empty string contributes
only the re-displayed prompt: the trace continues exactly with the trace of
the remaining input (itself starting with the prompt), and the number of
client calls is unchanged. -/
theorem empty_input_skips_client (client : String → List String) (fin : EndEvent)
    (line : String) (rest : List String) (h : pyStrip line = "") :
    runLoop client fin (line :: rest) = Action.promptUser :: runLoop client fin rest ∧
    (runLoop client fin rest).head? = some Action.promptUser ∧
    (runLoop client fin (line :: rest)).countP isClientCall =
      (runLoop client fin rest).countP isClientCall := by
  have heq : runLoop client fin (line :: rest) =
      Action.promptUser :: runLoop client fin rest := by
    simp [runLoop, h]
  refine ⟨heq, runLoop_head? client fin rest, ?_⟩
  rw [heq, List.countP_cons]
  simp [isClientCall]

/-- Witness for C7: a whitespace-only line followed by end of input. -/
theorem empty_input_skips_client_witness :
    runLoop (fun _ => []) EndEvent.eofError [" "] =
        Action.promptUser :: runLoop (fun _ => []) EndEvent.eofError [] ∧
    (runLoop (fun _ => []) EndEvent.eofError []).head? = some Action.promptUser ∧
    (runLoop (fun _ => []) EndEvent.eofError [" "]).countP isClientCall =
      (runLoop (fun _ => []) EndEvent.eofError []).countP isClientCall :=
  empty_input_skips_client (fun _ => []) EndEvent.eofError " " [] rfl

/-- Claim C8: whatever lines were read and whether the read finally raises
`EOFError` or `KeyboardInterrupt`, the loop terminates cleanly with exit
code 0, and the final action is the newline printed by the handler itself —
no previously printed newline is required. -/
theorem end_of_input_clean_exit (client : String → List String) (fin : EndEvent)
    (lines : List String) :
    (interactiveSession client fin lines).2 = 0 ∧
    (interactiveSession client fin lines).1.getLast? = some Action.printNewline := by
  refine ⟨rfl, ?_⟩
  show (runLoop client fin lines).getLast? = some Action.printNewline
  induction lines with
  | nil => rfl
  | cons line rest ih =>
    by_cases h : pyStrip line = ""
    · rw [show runLoop client fin (line :: rest) =
        [Action.promptUser] ++ runLoop client fin rest by simp [runLoop, h]]
      rw [List.getLast?_append_of_ne_nil _ (runLoop_ne_nil client fin rest)]
      exact ih
    · rw [show runLoop client fin (line :: rest) =
        [Action.promptUser, Action.agentMarker, Action.clientCall (pyStrip line)] ++
          (((client (pyStrip line)).filter (fun s => s != "")).map Action.printFragment ++
            (Action.printNewline :: runLoop client fin rest)) by simp [runLoop, h]]
      rw [List.getLast?_append_of_ne_nil _ (by simp)]
      rw [List.getLast?_append_cons]
      cases hr : runLoop client fin rest with
      | nil => exact absurd hr (runLoop_ne_nil client fin rest)
      | cons a t =>
        rw [List.getLast?_cons_cons, ← hr]
        exact ih

/-- Claim C10: the loop submits exactly the stripped lines: a client call
with text `s` occurs in the trace exactly when some input line strips to the
non-empty `s` — the raw line is never submitted. -/
theorem submitted_text_is_stripped (client : String → List String) (fin : EndEvent)
    (lines : List String) (s : String) :
    Action.clientCall s ∈ runLoop client fin lines ↔
      ∃ line ∈ lines, pyStrip line ≠ "" ∧ pyStrip line = s := by
  induction lines with
  | nil => simp [runLoop]
  | cons line rest ih =>
    by_cases h : pyStrip line = ""
    · simp [runLoop, h, ih]
    · simp [runLoop, h, ih]
      exact or_congr_left eq_comm

/-- Witness for C3: the fixed candidate list at a concrete start
directory. -/
theorem resolver_first_match_witness :
    devCandidates ["r", "AgentFrameworkPython"] =
      [["r", "AgentFrameworkPython"] ++ ["appsettings.Development.json"],
       (["r", "AgentFrameworkPython"] : FsPath).dropLast ++
         ["AgentFramework", "appsettings.Development.json"],
       (["r", "AgentFrameworkPython"] : FsPath).dropLast ++
         ["AgentFramework", "bin", "Debug", "net10.0",
           "appsettings.Development.json"]] :=
  (resolver_first_match (fun _ => false) ["r", "AgentFrameworkPython"] []).1

/-- Witness for C6: at a concrete start directory, the base candidate is not
among the development candidates. -/
theorem base_path_optional_witness :
    baseCandidate ["r", "AgentFrameworkPython"] ∉
      devCandidates ["r", "AgentFrameworkPython"] :=
  (base_path_optional (fun _ => false) ["r", "AgentFrameworkPython"]).2.2

/-- Witness for C8: an immediately interrupted session exits with code 0 and
ends on the newline printed by the handler. -/
theorem end_of_input_clean_exit_witness :
    (interactiveSession (fun _ => []) EndEvent.keyboardInterrupt []).2 = 0 ∧
    (interactiveSession (fun _ => []) EndEvent.keyboardInterrupt
      []).1.getLast? = some Action.printNewline :=
  end_of_input_clean_exit (fun _ => []) EndEvent.keyboardInterrupt []

end AgentFrameworkPlayground
